import Mathlib

/-!
Verification development for the astroid AST toolkit (node model,
line-range resolver, scope resolver, rebuilder fragments, and the zipper).

The Lean definitions below are a shallow embedding of the Python sources:

* `src/astroid/base.py` — `BaseNode` (truthiness, `__iter__` over
  `_astroid_fields`, `__eq__`, `fromlineno`, `tolineno`, `block_range`,
  `BlockRangeMixIn._elsed_block_range`, the `Empty` sentinel);
* `src/astroid/node_classes.py` — the node variants used by the claims,
  with their `_astroid_fields` / `_other_fields` declarations and the
  `block_range` overrides of `If`, `While`, `TryExcept`, `TryFinally`,
  `Module`, `FunctionDef`;
* `src/astroid/rebuilder.py` — `BUILTIN_NAMES`, `visit_name`,
  `visit_arguments` (`_build_args`, `_build_variadic`);
* `src/astroid/scope.py` — `node_scope` and the `_scope_by_parent`
  dispatch cases;
* `src/astroid/zipper.py` — `Zipper` (`down`, `up`, `left`, `right`,
  `replace`, the `parent` property) over an explicit `Path` structure.

Conventions: Python `None`-able line numbers are `Option Int`; a Python
run-time error (AttributeError / IndexError / TypeError) in a modelled
computation is collapsed to `none` of the surrounding `Option` result.
Python singly linked tuples lists are Lean `List`s (same order).
-/

namespace Astroid

/-- Constant values carried by `Const` / `NameConstant` nodes
(`rebuilder.py` `BUILTIN_NAMES` plus numeric and string literals). -/
inductive ConstVal where
  | noneV
  | notImplementedV
  | boolV (b : Bool)
  | intV (n : Int)
  | strV (s : String)
  deriving DecidableEq, Repr

/-- Expression contexts, `rebuilder.py` `CONTEXTS` (`ast.Param` is already
mapped to `Store` there, so three canonical contexts remain). -/
inductive Ctx where
  | Load
  | Store
  | Del
  deriving DecidableEq, Repr

/-- The node variants of `node_classes.py` needed by the claims, as one
inductive.  Each constructor stores the class's `_other_fields`, its
`_astroid_fields` (child slots: a single `Node`, a `List Node`, or the
`Empty` sentinel, which is the `empty` constructor), and the `lineno` /
`col_offset` attributes (`Option Int`, `none` = Python `None`).
`Module` stores no position: its class attribute fixes `lineno = 0`, and
its `__init__` ignores the position arguments.  `Arguments.__init__`
passes `(None, None)` to its superclass, so `arguments` stores none
either.  (`Module.file_encoding` is stored by `__init__` but is not in
the Python 3 `_other_fields` and no modelled algorithm reads it, so it
is omitted.) -/
inductive Node where
  | empty
  | module (name : String) (doc : Option String) (package : Bool)
      (pure_python : Bool) (source_code : Option String)
      (source_file : Option String) (body : List Node)
  | functionDef (name : String) (doc : Option String) (args : Node)
      (body : List Node) (decorators : Node) (returns : Node)
      (lineno col_offset : Option Int)
  | arguments (args : List Node) (vararg : Node) (kwarg : Node)
      (keyword_only : List Node) (positional_only : List Node)
  | parameter (name : String) (default : Node) (ann : Node)
      (lineno col_offset : Option Int)
  | name (name : String) (lineno col_offset : Option Int)
  | assignName (name : String) (lineno col_offset : Option Int)
  | delName (name : String) (lineno col_offset : Option Int)
  | const (value : ConstVal) (lineno col_offset : Option Int)
  | nameConstant (value : ConstVal) (lineno col_offset : Option Int)
  | pass (lineno col_offset : Option Int)
  | expr (value : Node) (lineno col_offset : Option Int)
  | call (func : Node) (args : List Node) (keywords : List Node)
      (lineno col_offset : Option Int)
  | tryExcept (body : List Node) (handlers : List Node)
      (orelse : List Node) (lineno col_offset : Option Int)
  | exceptHandler (type : Node) (nameN : Node) (body : List Node)
      (lineno col_offset : Option Int)
  | tryFinally (body : List Node) (finalbody : List Node)
      (lineno col_offset : Option Int)
  | forN (target : Node) (iter : Node) (body : List Node)
      (orelse : List Node) (lineno col_offset : Option Int)
  | whileN (test : Node) (body : List Node) (orelse : List Node)
      (lineno col_offset : Option Int)
  | ifN (test : Node) (body : List Node) (orelse : List Node)
      (lineno col_offset : Option Int)
  | decorators (nodes : List Node) (lineno col_offset : Option Int)

/-- The variant tag (the Python class) of a node. -/
inductive NodeTag where
  | empty | module | functionDef | arguments | parameter | name
  | assignName | delName | const | nameConstant | pass | expr | call
  | tryExcept | exceptHandler | tryFinally | forN | whileN | ifN
  | decorators
  deriving DecidableEq, Repr

def Node.tag : Node → NodeTag
  | .empty => .empty
  | .module .. => .module
  | .functionDef .. => .functionDef
  | .arguments .. => .arguments
  | .parameter .. => .parameter
  | .name .. => .name
  | .assignName .. => .assignName
  | .delName .. => .delName
  | .const .. => .const
  | .nameConstant .. => .nameConstant
  | .pass .. => .pass
  | .expr .. => .expr
  | .call .. => .call
  | .tryExcept .. => .tryExcept
  | .exceptHandler .. => .exceptHandler
  | .tryFinally .. => .tryFinally
  | .forN .. => .forN
  | .whileN .. => .whileN
  | .ifN .. => .ifN
  | .decorators .. => .decorators

/-- Python truthiness of a node: only the `Empty` sentinel is falsy
(`base.py`: `Empty.__bool__` returns `False`; ordinary nodes have no
`__bool__`, hence are truthy). -/
def Node.truthy : Node → Bool
  | .empty => false
  | _ => true

/-- The `lineno` attribute of a node (`Option Int`; `Module.lineno` is
the class attribute `0`, `Arguments` got `(None, None)` from its
`__init__`, `Empty` inherits the class default `None`). -/
def Node.linenoAttr : Node → Option Int
  | .empty => none
  | .module .. => some 0
  | .functionDef _ _ _ _ _ _ l _ => l
  | .arguments .. => none
  | .parameter _ _ _ l _ => l
  | .name _ l _ => l
  | .assignName _ l _ => l
  | .delName _ l _ => l
  | .const _ l _ => l
  | .nameConstant _ l _ => l
  | .pass l _ => l
  | .expr _ l _ => l
  | .call _ _ _ l _ => l
  | .tryExcept _ _ _ l _ => l
  | .exceptHandler _ _ _ l _ => l
  | .tryFinally _ _ l _ => l
  | .forN _ _ _ _ l _ => l
  | .whileN _ _ _ l _ => l
  | .ifN _ _ _ l _ => l
  | .decorators _ l _ => l

/-- A zipper focus: either one node or an ordered sibling sequence
(`zipper.py`: `__wrapped__` is a `base.BaseNode` or a `Sequence`).
A node's child slots (`_astroid_fields` values) are exactly such
focuses: a child node, a child list, or the `Empty` sentinel. -/
inductive Focus where
  | node (n : Node)
  | seq (s : List Node)

/-- The values of a node's `_astroid_fields`, in declaration order
(`BaseNode.__iter__`). -/
def Node.childFocuses : Node → List Focus
  | .empty => []
  | .module _ _ _ _ _ _ body => [.seq body]
  | .functionDef _ _ args body dec ret _ _ =>
      [.node dec, .node args, .seq body, .node ret]
  | .arguments args vararg kwarg kwonly posonly =>
      [.seq args, .node vararg, .node kwarg, .seq kwonly, .seq posonly]
  | .parameter _ dflt ann _ _ => [.node dflt, .node ann]
  | .name .. => []
  | .assignName .. => []
  | .delName .. => []
  | .const .. => []
  | .nameConstant .. => []
  | .pass .. => []
  | .expr v _ _ => [.node v]
  | .call f args kws _ _ => [.node f, .seq args, .seq kws]
  | .tryExcept body handlers orelse _ _ =>
      [.seq body, .seq handlers, .seq orelse]
  | .exceptHandler ty nm body _ _ => [.node ty, .node nm, .seq body]
  | .tryFinally body finalbody _ _ => [.seq body, .seq finalbody]
  | .forN tgt it body orelse _ _ =>
      [.node tgt, .node it, .seq body, .seq orelse]
  | .whileN test body orelse _ _ => [.node test, .seq body, .seq orelse]
  | .ifN test body orelse _ _ => [.node test, .seq body, .seq orelse]
  | .decorators ns _ _ => [.seq ns]

/-- Python truthiness of a focus value: nodes as above, a sequence is
truthy iff nonempty. -/
def Focus.truthy : Focus → Bool
  | .node n => n.truthy
  | .seq s => !s.isEmpty

/-- Iterating a focus (`iter(self.__wrapped__)`): a node yields its
child-field values, a sequence yields its elements. -/
def Focus.children : Focus → List Focus
  | .node n => n.childFocuses
  | .seq s => s.map .node

/-- The `lineno` attribute through a focus; reading `lineno` off a bare
sequence is an AttributeError, collapsed to `none`. -/
def Focus.linenoAttr : Focus → Option Int
  | .node n => n.linenoAttr
  | .seq _ => none

mutual

/-- Structural depth of a node, used only as loop fuel for the walks
below (the Python loops descend strictly, so depth bounds them). -/
def Node.depth : Node → Nat
  | .empty => 0
  | .module _ _ _ _ _ _ body => depthList body + 1
  | .functionDef _ _ args body dec ret _ _ =>
      max (max args.depth (depthList body)) (max dec.depth ret.depth) + 1
  | .arguments args vararg kwarg kwonly posonly =>
      max (max (depthList args) (max vararg.depth kwarg.depth))
        (max (depthList kwonly) (depthList posonly)) + 1
  | .parameter _ dflt ann _ _ => max dflt.depth ann.depth + 1
  | .name .. => 0
  | .assignName .. => 0
  | .delName .. => 0
  | .const .. => 0
  | .nameConstant .. => 0
  | .pass .. => 0
  | .expr v _ _ => v.depth + 1
  | .call f args kws _ _ =>
      max f.depth (max (depthList args) (depthList kws)) + 1
  | .tryExcept body handlers orelse _ _ =>
      max (depthList body) (max (depthList handlers) (depthList orelse)) + 1
  | .exceptHandler ty nm body _ _ =>
      max (max ty.depth nm.depth) (depthList body) + 1
  | .tryFinally body finalbody _ _ =>
      max (depthList body) (depthList finalbody) + 1
  | .forN tgt it body orelse _ _ =>
      max (max tgt.depth it.depth) (max (depthList body) (depthList orelse)) + 1
  | .whileN test body orelse _ _ =>
      max test.depth (max (depthList body) (depthList orelse)) + 1
  | .ifN test body orelse _ _ =>
      max test.depth (max (depthList body) (depthList orelse)) + 1
  | .decorators ns _ _ => depthList ns + 1

/-- Pointwise maximum depth of a node list. -/
def depthList : List Node → Nat
  | [] => 0
  | x :: xs => max x.depth (depthList xs)

end

/-- One descent of `BaseNode.tolineno`: the last truthy entry of the
focus's children (`for child in reversed(tuple(last_child))` with
`if child: ... break`). -/
def lastTruthyChild (f : Focus) : Option Focus :=
  f.children.reverse.find? Focus.truthy

/-- The loop of `BaseNode.tolineno`, with explicit fuel (each iteration
descends strictly, so depth-derived fuel never runs out). -/
def tolinenoAux : Nat → Focus → Option Int
  | 0, _ => none
  | fuel + 1, f =>
    if f.truthy then
      match lastTruthyChild f with
      | some ch => tolinenoAux fuel ch
      | none => f.linenoAttr
    else
      f.linenoAttr

/-- Model of `BaseNode.tolineno`: descend through the last truthy child until a
node with no truthy children remains, and return its `lineno`.  A step
from a node to a child list and on to one of its elements consumes two
fuel units, hence the factor 2. -/
def Node.tolineno (n : Node) : Option Int :=
  tolinenoAux (2 * n.depth + 2) (.node n)

/-- Sum of `node.tolineno - node.lineno + 1` over a decorator list
(`FunctionDef.fromlineno`); any missing line collapses to `none`. -/
def sumSpans : List Node → Option Int
  | [] => some 0
  | d :: ds => do
      let t ← d.tolineno
      let l ← d.linenoAttr
      let r ← sumSpans ds
      pure (t - l + 1 + r)

/-- Model of `fromlineno`: the default property returns `self.lineno`;
`Module` overrides it with the class attribute `0`; `FunctionDef` adds
the decorators' spans to `lineno` when `self.decorators` is truthy
(reading `.nodes` off a truthy non-`Decorators` value would be an
AttributeError, collapsed to `none`). -/
def Node.fromlineno : Node → Option Int
  | .module .. => some 0
  | .functionDef _ _ _ _ dec _ l _ =>
      match dec with
      | .empty => l
      | .decorators ds _ _ => do
          let lv ← l
          let s ← sumSpans ds
          pure (lv + s)
      | _ => none
  | n => n.linenoAttr

/-! ## Line-range resolver (`block_range` and its overrides)

A block-range result is `some (first, last?)` for a Python return of the
tuple `(first, last)` — `last?` is an `Option Int` because a few source
paths return a tuple whose second component is `None` (e.g. `lineno,
orelse[-1].tolineno` when that node has no line).  `none` overall models
a Python run-time error on the way (indexing an empty body, comparing
`None` with `<=`/`-`). -/

/-- Python `last or self.tolineno`: `last` wins iff it is a truthy int
(not `None` and not `0`). -/
def pyOr (last tol : Option Int) : Option Int :=
  match last with
  | none => tol
  | some x => if x = 0 then tol else some x

/-- Model of `BlockRangeMixIn._elsed_block_range(self, lineno, orelse, last=None)`
with `self.fromlineno` and `self.tolineno` passed explicitly.  (The
first guard `lineno == self.fromlineno` is a Python `==`, which is
simply `False` against `None`.) -/
def elsedBlockRange (selfFrom selfTo : Option Int) (lineno : Int)
    (orelse : List Node) (last : Option Int) : Option (Int × Option Int) :=
  if selfFrom = some lineno then some (lineno, some lineno)
  else
    match orelse with
    | [] => some (lineno, pyOr last selfTo)
    | o0 :: _ =>
      match o0.fromlineno with
      | none => none
      | some ofl =>
        if lineno ≥ ofl then
          match orelse.getLast? with
          | none => none
          | some ol => some (lineno, ol.tolineno)
        else some (lineno, some (ofl - 1))

/-- The handler loop of `TryExcept.block_range`: scan handlers in order,
returning `.inl range` on an early `return` and `.inr last` when the
loop finishes.  `last` is updated (once, to `body[0].fromlineno - 1` of
the first scanned handler) only when neither check fired. -/
def teLoop (lineno : Int) : List Node → Option Int →
    Option (Sum (Int × Option Int) (Option Int))
  | [], last => some (.inr last)
  | h :: rest, last =>
    match h with
    | .exceptHandler ty _ body _ _ =>
      if ty.truthy && (ty.fromlineno = some lineno) then
        some (.inl (lineno, some lineno))
      else
        match body.head? with
        | none => none
        | some b0n =>
          match b0n.fromlineno with
          | none => none
          | some b0 =>
            if b0 ≤ lineno then
              match body.getLast? with
              | none => none
              | some bln =>
                match bln.tolineno with
                | none => none
                | some bl =>
                  if lineno ≤ bl then some (.inl (lineno, some bl))
                  else teLoop lineno rest (last <|> some (b0 - 1))
            else teLoop lineno rest (last <|> some (b0 - 1))
    | _ => none

/-- Model of `TryExcept.block_range` given the node's pieces. -/
def teBlockRange (selfFrom selfTo : Option Int) (lineno : Int)
    (handlers orelse : List Node) : Option (Int × Option Int) :=
  match teLoop lineno handlers none with
  | none => none
  | some (.inl r) => some r
  | some (.inr last) => elsedBlockRange selfFrom selfTo lineno orelse last

/-- A handler's `body[0].fromlineno` (the quantity behind the
`last = exhandler.body[0].fromlineno - 1` update of the scan). -/
def handlerB0 : Node → Option Int
  | .exceptHandler _ _ body _ _ => body.head? >>= Node.fromlineno
  | _ => none

/-- The value of the scan's `last` variable after passing over a list
of non-matching handlers: set once, to `body[0].fromlineno - 1` of the
first of them. -/
def preLast : Option Int → List Node → Option Int
  | last, [] => last
  | last, h :: t => preLast (last <|> (handlerB0 h).map (· - 1)) t

/-- A handler the scan of `TryExcept.block_range` passes over at the
queried line: it is a well-formed `ExceptHandler` (nonempty body with
known start and end lines), its type check does not fire, and the line
is outside its body span. -/
def HandlerSkips (lineno : Int) (h : Node) : Prop :=
  ∃ ty nm body l c b0n b0 bln bl,
    h = .exceptHandler ty nm body l c ∧
    (ty.truthy && decide (ty.fromlineno = some lineno)) = false ∧
    body.head? = some b0n ∧ b0n.fromlineno = some b0 ∧
    body.getLast? = some bln ∧ bln.tolineno = some bl ∧
    ¬(b0 ≤ lineno ∧ lineno ≤ bl)

/-- Model of `If.block_range` given the node's pieces. -/
def ifBlockRange (selfFrom selfTo : Option Int) (lineno : Int)
    (body orelse : List Node) : Option (Int × Option Int) :=
  match body.head? with
  | none => none
  | some b0n =>
    if b0n.fromlineno = some lineno then some (lineno, some lineno)
    else
      match body.getLast? with
      | none => none
      | some bln =>
        match bln.tolineno with
        | none => none
        | some bl =>
          if lineno ≤ bl then some (lineno, some bl)
          else
            match b0n.fromlineno with
            | none => none
            | some b0 =>
              elsedBlockRange selfFrom selfTo lineno orelse (some (b0 - 1))

/-- Whether a node is a `TryExcept` (the `isinstance` test in
`TryFinally.block_range`). -/
def Node.isTryExcept : Node → Bool
  | .tryExcept .. => true
  | _ => false

/-- Model of `TryFinally.block_range` given the node's pieces: the collapsed
`try/except/finally` form delegates to the inner `TryExcept`'s
`block_range`, otherwise `_elsed_block_range` against `finalbody`. -/
def tfBlockRange (selfFrom selfTo : Option Int) (lineno : Int)
    (body finalbody : List Node) : Option (Int × Option Int) :=
  match body.head? with
  | none => none
  | some child =>
    let elsed := elsedBlockRange selfFrom selfTo lineno finalbody none
    if child.isTryExcept && (child.fromlineno = selfFrom) then
      match selfFrom with
      | none => none
      | some sf =>
        if lineno > sf then
          match child.tolineno with
          | none => none
          | some ct =>
            if lineno ≤ ct then
              match child with
              | .tryExcept _ h o _ _ =>
                  teBlockRange child.linenoAttr child.tolineno lineno h o
              | _ => none
            else elsed
        else elsed
    else elsed

/-- Model of `block_range(node, lineno)`: the `BaseNode` default is
`(lineno, self.tolineno)`; `Module`, `FunctionDef`, `If`, `While`,
`TryExcept` and `TryFinally` override it (`For` and `ClassDef`-style
overrides: `For` has no override in `node_classes.py`, so it uses the
default; `FunctionDef` returns its own full span). -/
def Node.blockRange (n : Node) (lineno : Int) : Option (Int × Option Int) :=
  match n with
  | .module .. => some (0, n.tolineno)
  | .functionDef .. =>
      match n.fromlineno with
      | none => none
      | some f => some (f, n.tolineno)
  | .ifN _ body orelse _ _ =>
      ifBlockRange n.linenoAttr n.tolineno lineno body orelse
  | .whileN _ _ orelse _ _ =>
      elsedBlockRange n.linenoAttr n.tolineno lineno orelse none
  | .tryExcept _ handlers orelse _ _ =>
      teBlockRange n.linenoAttr n.tolineno lineno handlers orelse
  | .tryFinally body finalbody _ _ =>
      tfBlockRange n.linenoAttr n.tolineno lineno body finalbody
  | _ => some (lineno, n.tolineno)

/-! ## Structural equality (`BaseNode.__eq__`)

`self.__class__ is other.__class__`, then every `_astroid_fields` slot
and every `_other_fields` slot is compared with `==` (child nodes
recursively, child lists elementwise, primitives by value).  `lineno`,
`col_offset` and parenthood are not compared (parent links are not part
of a node at all in this embedding — parenthood lives in the zipper
path). -/

mutual

/-- Model of `BaseNode.__eq__` on nodes: dispatch on the left node's variant (the
`self.__class__ is other.__class__` check), then compare every child
slot and every `_other_fields` slot with `==`. -/
def structEq : Node → Node → Bool
  | .empty, b =>
    match b with
    | .empty => true
    | _ => false
  | .module n1 d1 p1 pp1 sc1 sf1 b1, b =>
    match b with
    | .module n2 d2 p2 pp2 sc2 sf2 b2 =>
        n1 == n2 && d1 == d2 && p1 == p2 && pp1 == pp2 && sc1 == sc2 &&
          sf1 == sf2 && structEqList b1 b2
    | _ => false
  | .functionDef n1 d1 a1 b1 de1 r1 _ _, b =>
    match b with
    | .functionDef n2 d2 a2 b2 de2 r2 _ _ =>
        n1 == n2 && d1 == d2 && structEq a1 a2 && structEqList b1 b2 &&
          structEq de1 de2 && structEq r1 r2
    | _ => false
  | .arguments a1 v1 k1 ko1 po1, b =>
    match b with
    | .arguments a2 v2 k2 ko2 po2 =>
        structEqList a1 a2 && structEq v1 v2 && structEq k1 k2 &&
          structEqList ko1 ko2 && structEqList po1 po2
    | _ => false
  | .parameter n1 d1 an1 _ _, b =>
    match b with
    | .parameter n2 d2 an2 _ _ =>
        n1 == n2 && structEq d1 d2 && structEq an1 an2
    | _ => false
  | .name n1 _ _, b =>
    match b with
    | .name n2 _ _ => n1 == n2
    | _ => false
  | .assignName n1 _ _, b =>
    match b with
    | .assignName n2 _ _ => n1 == n2
    | _ => false
  | .delName n1 _ _, b =>
    match b with
    | .delName n2 _ _ => n1 == n2
    | _ => false
  | .const v1 _ _, b =>
    match b with
    | .const v2 _ _ => v1 == v2
    | _ => false
  | .nameConstant v1 _ _, b =>
    match b with
    | .nameConstant v2 _ _ => v1 == v2
    | _ => false
  | .pass _ _, b =>
    match b with
    | .pass _ _ => true
    | _ => false
  | .expr v1 _ _, b =>
    match b with
    | .expr v2 _ _ => structEq v1 v2
    | _ => false
  | .call f1 a1 k1 _ _, b =>
    match b with
    | .call f2 a2 k2 _ _ =>
        structEq f1 f2 && structEqList a1 a2 && structEqList k1 k2
    | _ => false
  | .tryExcept b1 h1 o1 _ _, b =>
    match b with
    | .tryExcept b2 h2 o2 _ _ =>
        structEqList b1 b2 && structEqList h1 h2 && structEqList o1 o2
    | _ => false
  | .exceptHandler t1 n1 b1 _ _, b =>
    match b with
    | .exceptHandler t2 n2 b2 _ _ =>
        structEq t1 t2 && structEq n1 n2 && structEqList b1 b2
    | _ => false
  | .tryFinally b1 f1 _ _, b =>
    match b with
    | .tryFinally b2 f2 _ _ => structEqList b1 b2 && structEqList f1 f2
    | _ => false
  | .forN t1 i1 b1 o1 _ _, b =>
    match b with
    | .forN t2 i2 b2 o2 _ _ =>
        structEq t1 t2 && structEq i1 i2 && structEqList b1 b2 &&
          structEqList o1 o2
    | _ => false
  | .whileN t1 b1 o1 _ _, b =>
    match b with
    | .whileN t2 b2 o2 _ _ =>
        structEq t1 t2 && structEqList b1 b2 && structEqList o1 o2
    | _ => false
  | .ifN t1 b1 o1 _ _, b =>
    match b with
    | .ifN t2 b2 o2 _ _ =>
        structEq t1 t2 && structEqList b1 b2 && structEqList o1 o2
    | _ => false
  | .decorators n1 _ _, b =>
    match b with
    | .decorators n2 _ _ => structEqList n1 n2
    | _ => false

/-- Python list `==` over node lists (elementwise `__eq__`). -/
def structEqList : List Node → List Node → Bool
  | [], [] => true
  | x :: xs, y :: ys => structEq x y && structEqList xs ys
  | _, _ => false

end

/-- Python `==` between two child-slot values: node against node, list
against list, mixed kinds unequal. -/
def focusEq : Focus → Focus → Bool
  | .node a, .node b => structEq a b
  | .seq a, .seq b => structEqList a b
  | _, _ => false

/-- Elementwise `focusEq` on child-slot lists (used to state the
pairwise-equal-fields hypothesis of the equality claim). -/
def focusEqList : List Focus → List Focus → Bool
  | [], [] => true
  | x :: xs, y :: ys => focusEq x y && focusEqList xs ys
  | _, _ => false

/-- A non-child (`_other_fields`) value: identifier strings, optional
docstrings/paths, flags, constant values. -/
inductive OtherVal where
  | s (v : String)
  | os (v : Option String)
  | b (v : Bool)
  | cv (v : ConstVal)
  deriving DecidableEq, Repr

/-- The values of a node's `_other_fields`, in declaration order (the
Python 3 declarations). -/
def Node.otherFields : Node → List OtherVal
  | .empty => []
  | .module nm doc pk pp sc sf _ =>
      [.s nm, .os doc, .b pk, .b pp, .os sc, .os sf]
  | .functionDef nm doc _ _ _ _ _ _ => [.s nm, .os doc]
  | .arguments .. => []
  | .parameter nm _ _ _ _ => [.s nm]
  | .name nm _ _ => [.s nm]
  | .assignName nm _ _ => [.s nm]
  | .delName nm _ _ => [.s nm]
  | .const v _ _ => [.cv v]
  | .nameConstant v _ _ => [.cv v]
  | .pass .. => []
  | .expr .. => []
  | .call .. => []
  | .tryExcept .. => []
  | .exceptHandler .. => []
  | .tryFinally .. => []
  | .forN .. => []
  | .whileN .. => []
  | .ifN .. => []
  | .decorators .. => []

/-! ## The zipper (`zipper.py`)

The Python `Path` is the namedtuple `(left, right, parent_nodes,
parent_path, changed)`, where `parent_path` is the next `Path` or
`None`.  That chain is encoded here as a `List Frame` — one `Frame` per
namedtuple, head = the innermost path, `[]` = `None` (faithful: a
namedtuple is always truthy and `None` falsy, and the source only ever
tests `if self._self_path:`).  The tuple-encoded singly linked lists
become Lean lists with the same (nearest-first) order.  A `Zipper` is
the wrapped focus plus its path chain. -/

structure Frame where
  left : List Focus
  right : List Focus
  parent_nodes : List Focus
  changed : Bool

/-- Model of `Path._replace(changed=b)` on the head namedtuple. -/
def Frame.withChanged (f : Frame) (b : Bool) : Frame :=
  { f with changed := b }

structure Zipper where
  focus : Focus
  path : List Frame

/-- Coerce a sibling entry back to a node (only sensible when the entry
is a node; the degenerate sequence-in-sequence case yields `Empty`). -/
def Focus.asNode : Focus → Node
  | .node n => n
  | .seq _ => .empty

/-- Coerce a sibling entry back to a node list (a node entry becomes a
singleton — the degenerate case; well-shaped calls pass sequences). -/
def Focus.asSeq : Focus → List Node
  | .seq s => s
  | .node n => [n]

/-- Modelled from the spec: `make_node`, called by `Zipper.up` on the
saved ancestor (`focus.make_node(focus_node)`), is not defined anywhere
under `src/` — only this call site exists.  Per the spec, `up()`
re-synthesizes the full sibling sequence "as the new child-field value
of a freshly reconstructed ancestor node".  So: rebuilding a sequence
ancestor yields the sequence of the entries; rebuilding a node ancestor
keeps the variant and the non-child fields and repopulates the child
fields, in declaration order, from the sibling sequence (missing
entries keep the old field value; the coercions above totalize
ill-shaped entries). -/
def makeNode : Focus → List Focus → Focus
  | .seq _, cs => .seq (cs.map Focus.asNode)
  | .node n, cs => .node (setFields n cs)
where
  /-- Repopulate a node's child fields from a sibling list. -/
  setFields : Node → List Focus → Node
  | .empty, _ => .empty
  | .module nm doc pk pp sc sf body, cs =>
      .module nm doc pk pp sc sf ((cs.getD 0 (.seq body)).asSeq)
  | .functionDef nm doc args body dec ret l c, cs =>
      .functionDef nm doc ((cs.getD 1 (.node args)).asNode)
        ((cs.getD 2 (.seq body)).asSeq) ((cs.getD 0 (.node dec)).asNode)
        ((cs.getD 3 (.node ret)).asNode) l c
  | .arguments args vararg kwarg kwonly posonly, cs =>
      .arguments ((cs.getD 0 (.seq args)).asSeq)
        ((cs.getD 1 (.node vararg)).asNode) ((cs.getD 2 (.node kwarg)).asNode)
        ((cs.getD 3 (.seq kwonly)).asSeq) ((cs.getD 4 (.seq posonly)).asSeq)
  | .parameter nm dflt ann l c, cs =>
      .parameter nm ((cs.getD 0 (.node dflt)).asNode)
        ((cs.getD 1 (.node ann)).asNode) l c
  | .name nm l c, _ => .name nm l c
  | .assignName nm l c, _ => .assignName nm l c
  | .delName nm l c, _ => .delName nm l c
  | .const v l c, _ => .const v l c
  | .nameConstant v l c, _ => .nameConstant v l c
  | .pass l c, _ => .pass l c
  | .expr v l c, cs => .expr ((cs.getD 0 (.node v)).asNode) l c
  | .call f args kws l c, cs =>
      .call ((cs.getD 0 (.node f)).asNode) ((cs.getD 1 (.seq args)).asSeq)
        ((cs.getD 2 (.seq kws)).asSeq) l c
  | .tryExcept body handlers orelse l c, cs =>
      .tryExcept ((cs.getD 0 (.seq body)).asSeq)
        ((cs.getD 1 (.seq handlers)).asSeq) ((cs.getD 2 (.seq orelse)).asSeq)
        l c
  | .exceptHandler ty nm body l c, cs =>
      .exceptHandler ((cs.getD 0 (.node ty)).asNode)
        ((cs.getD 1 (.node nm)).asNode) ((cs.getD 2 (.seq body)).asSeq) l c
  | .tryFinally body finalbody l c, cs =>
      .tryFinally ((cs.getD 0 (.seq body)).asSeq)
        ((cs.getD 1 (.seq finalbody)).asSeq) l c
  | .forN tgt it body orelse l c, cs =>
      .forN ((cs.getD 0 (.node tgt)).asNode) ((cs.getD 1 (.node it)).asNode)
        ((cs.getD 2 (.seq body)).asSeq) ((cs.getD 3 (.seq orelse)).asSeq) l c
  | .whileN test body orelse l c, cs =>
      .whileN ((cs.getD 0 (.node test)).asNode) ((cs.getD 1 (.seq body)).asSeq)
        ((cs.getD 2 (.seq orelse)).asSeq) l c
  | .ifN test body orelse l c, cs =>
      .ifN ((cs.getD 0 (.node test)).asNode) ((cs.getD 1 (.seq body)).asSeq)
        ((cs.getD 2 (.seq orelse)).asSeq) l c
  | .decorators ns l c, cs => .decorators ((cs.getD 0 (.seq ns)).asSeq) l c

/-- Whether an entry is a sequence. -/
def Focus.isSeq : Focus → Bool
  | .seq _ => true
  | .node _ => false

/-- A sibling list has the arity and node/sequence shapes of the
ancestor's child slots (so `make_node` reproduces it exactly). -/
def shapeOk (f : Focus) (cs : List Focus) : Bool :=
  match f with
  | .seq _ => cs.all (fun e => !e.isSeq)
  | .node n => cs.map Focus.isSeq = n.childFocuses.map Focus.isSeq

/-- The variant of a focus (`none` for sequences). -/
def Focus.tagF : Focus → Option NodeTag
  | .node n => some n.tag
  | .seq _ => none

/-- Mark the innermost path namedtuple dirty, as in
`parent_path and parent_path._replace(changed=True)` (nothing to mark
when the chain is `None`). -/
def markChanged : List Frame → List Frame
  | [] => []
  | f :: rest => f.withChanged true :: rest

/-- Model of `Zipper.down`: go to the first child, pushing the focus onto
`parent_nodes`; `None` when the focus has no children. -/
def Zipper.down (z : Zipper) : Option Zipper :=
  match z.focus.children with
  | [] => none
  | first :: rest =>
    let pn : List Focus :=
      match z.path with
      | f :: _ => z.focus :: f.parent_nodes
      | [] => [z.focus]
    some ⟨first, ⟨[], rest, pn, false⟩ :: z.path⟩

/-- Model of `Zipper.up`: `None` without a path or ancestors; otherwise the saved
ancestor unchanged (clean path) or rebuilt through `make_node` from
`reverse(left) ++ focus :: right` with the dirty flag pushed onto the
parent path (dirty path). -/
def Zipper.up (z : Zipper) : Option Zipper :=
  match z.path with
  | [] => none
  | f :: rest =>
    match f.parent_nodes with
    | [] => none
    | anc :: _ =>
      if f.changed then
        some ⟨makeNode anc (f.left.reverse ++ z.focus :: f.right),
          markChanged rest⟩
      else some ⟨anc, rest⟩

/-- Model of `Zipper.left`: `None` without a path or left siblings. -/
def Zipper.left (z : Zipper) : Option Zipper :=
  match z.path with
  | [] => none
  | f :: rest =>
    match f.left with
    | [] => none
    | s :: l2 =>
      some ⟨s, ⟨l2, z.focus :: f.right, f.parent_nodes, f.changed⟩ :: rest⟩

/-- Model of `Zipper.right`: `None` without a path or right siblings. -/
def Zipper.right (z : Zipper) : Option Zipper :=
  match z.path with
  | [] => none
  | f :: rest =>
    match f.right with
    | [] => none
    | s :: r2 =>
      some ⟨s, ⟨z.focus :: f.left, r2, f.parent_nodes, f.changed⟩ :: rest⟩

/-- Model of `Zipper.replace`: new focus, path marked dirty (kept `None` when
there is no path). -/
def Zipper.replace (z : Zipper) (newFocus : Focus) : Zipper :=
  ⟨newFocus, markChanged z.path⟩

/-- The `Zipper.parent` property: `up()`, and once more when that lands
on a sibling sequence (a `None` from `up()` propagates: Python would
then fail attribute access on it). -/
def Zipper.parentZ (z : Zipper) : Option Zipper :=
  match z.up with
  | none => none
  | some loc =>
    match loc.focus with
    | .seq _ => loc.up
    | .node _ => some loc

/-! ## Scope resolver (`scope.py`)

`node_scope` and `_scope_by_parent` operate on zippers (the Python
singledispatch sees the wrapped node's class through the proxy).  Every
special case of `_scope_by_parent` ends in `<target>.scope()`, so the
embedding returns the target zipper and lets the fueled driver take its
scope: `some (some t)` = "return `t.scope()`", `some none` = no special
case (fall back to `node.parent.scope()`), `none` = AttributeError. -/

/-- The loop of `_scope_by_argument_parent`: find a chain element whose
`default` equals the queried focus (`param.default == node`); a
non-`Parameter` element makes the attribute access fail. -/
def scanDefaults : List Node → Focus → Option Bool
  | [], _ => some false
  | p :: rest, f =>
    match p with
    | .parameter _ d _ _ _ =>
        if focusEq (.node d) f then some true else scanDefaults rest f
    | _ => none

/-- Model of `node in _node_arguments(args)`: lazily yield the truthy chain
elements with a truthy `annotation` and compare each against the
queried focus; a truthy non-`Parameter` element makes the attribute
access fail. -/
def nodeArgsScan : List Node → Focus → Option Bool
  | [], _ => some false
  | a :: rest, f =>
    if a.truthy then
      match a with
      | .parameter _ _ ann _ _ =>
          if ann.truthy then
            if focusEq (.node a) f then some true else nodeArgsScan rest f
          else nodeArgsScan rest f
      | _ => none
    else nodeArgsScan rest f

/-- Model of `_scope_by_parent(parent, node)` (the registered cases: `Parameter`,
`FunctionDef`, `Arguments`; the base implementation returns `None`).
The result encodes the `.scope()` redirection as described above. -/
def scopeByParent (par z : Zipper) : Option (Option Zipper) :=
  match par.focus with
  | .node (.parameter _ dflt ann _ _) =>
      if focusEq z.focus (.node dflt) then
        (par.parentZ >>= Zipper.parentZ >>= Zipper.parentZ).map some
      else if focusEq z.focus (.node ann) then
        (par.parentZ >>= Zipper.parentZ >>= Zipper.parentZ).map some
      else some none
  | .node (.functionDef _ _ _ _ _ ret _ _) =>
      if focusEq z.focus (.node ret) then par.parentZ.map some
      else some none
  | .node (.arguments args vararg kwarg kwonly _posonly) =>
      match scanDefaults (args ++ _posonly ++ kwonly) z.focus with
      | none => none
      | some true => (par.parentZ >>= Zipper.parentZ).map some
      | some false =>
        match nodeArgsScan (args ++ _posonly ++ kwonly ++ [vararg, kwarg])
            z.focus with
        | none => none
        | some true => (par.parentZ >>= Zipper.parentZ).map some
        | some false => some none
  | _ => some none

/-- Depth of a path (number of `parent_path` frames), the fuel bound for
the scope walk: every `node_scope` recursion moves at least one frame
up. -/
def pathDepth (path : List Frame) : Nat :=
  path.length

/-- The fueled driver for `node_scope`: registered scope-introducing
kinds (`Module`, `FunctionDef` here) return the zipper itself;
`Decorators` returns `node.parent.parent.scope()`; everything else runs
`_scope_by_parent(node.parent, node)` and falls back to
`node.parent.scope()` when it yields `None`. -/
def scopeFuel : Nat → Zipper → Option Zipper
  | 0, _ => none
  | fuel + 1, z =>
    match z.focus with
    | .node (.module ..) => some z
    | .node (.functionDef ..) => some z
    | .node (.decorators ..) =>
      match z.parentZ with
      | none => none
      | some p1 =>
        match p1.parentZ with
        | none => none
        | some p2 => scopeFuel fuel p2
    | _ =>
      match z.parentZ with
      | none => none
      | some par =>
        match scopeByParent par z with
        | none => none
        | some (some t) => scopeFuel fuel t
        | some none => scopeFuel fuel par

/-- Model of `Zipper.scope` / `scope.node_scope`. -/
def Zipper.scope (z : Zipper) : Option Zipper :=
  scopeFuel (pathDepth z.path + 1) z

/-! ## Rebuilder fragments (`rebuilder.py`)

Raw `ast` input is modelled just deeply enough for the claims: literal
expressions and raw parameter (`ast.arg`) records with optional
annotations and positions. -/

/-- A raw expression (the `ast` nodes reachable from the claims:
literals and identifiers; an identifier carries its context). -/
inductive RawExpr where
  | num (n : Int) (lineno col_offset : Option Int)
  | str (s : String) (lineno col_offset : Option Int)
  | nameR (id : String) (ctx : Ctx) (lineno col_offset : Option Int)

/-- Table `BUILTIN_NAMES` of `rebuilder.py` (an association table; `Ellipsis` has
its own node and is not in it). -/
def BUILTIN_NAMES : List (String × ConstVal) :=
  [("None", .noneV), ("NotImplemented", .notImplementedV),
   ("True", .boolV true), ("False", .boolV false)]

/-- Model of `TreeRebuilder.visit_name`: delete context gives `DelName`,
store/bind context gives `AssignName`, and only then, in load context,
an identifier spelling a reserved singleton becomes a `NameConstant`;
any other load-context identifier becomes `Name`. -/
def visitName (id : String) (ctx : Ctx) (l c : Option Int) : Node :=
  match ctx with
  | .Del => .delName id l c
  | .Store => .assignName id l c
  | .Load =>
    match BUILTIN_NAMES.lookup id with
    | some v => .nameConstant v l c
    | none => .name id l c

/-- Model of `TreeRebuilder.visit` on a raw expression (`visit_num`,
`visit_str`, `visit_name`). -/
def visitRawExpr : RawExpr → Node
  | .num n l c => .const (.intV n) l c
  | .str s l c => .const (.strV s) l c
  | .nameR id ctx l c => visitName id ctx l c

/-- A raw `ast.arg`: name, optional annotation, position. -/
structure RawArg where
  arg : String
  ann : Option RawExpr
  lineno : Option Int
  col_offset : Option Int

/-- An entry of the defaults deque inside `_build_args`: either the
`nodes.Empty` padding sentinel or a still-unvisited raw default
expression (the Python deque mixes exactly these two kinds). -/
inductive DefaultSlot where
  | empty
  | raw (e : RawExpr)

/-- The padding loop of `_build_args`, with explicit fuel:
`while len(defaults) != len(params): defaults.appendleft(nodes.Empty)`.
Exhausted fuel with the lengths still different is `none` — the theorem
below shows that when the defaults outnumber the parameters this holds
for every fuel, i.e. the source loop never terminates. -/
def padLoop : Nat → List DefaultSlot → Nat → Option (List DefaultSlot)
  | 0, defaults, plen =>
      if defaults.length = plen then some defaults else none
  | fuel + 1, defaults, plen =>
      if defaults.length = plen then some defaults
      else padLoop fuel (.empty :: defaults) plen

/-- Model of `default = defaults.popleft(); if default: default = self.visit(default)`:
the `Empty` sentinel is falsy and stays; a raw expression is visited. -/
def visitDefaultSlot : DefaultSlot → Node
  | .empty => .empty
  | .raw e => visitRawExpr e

/-- Model of `ParameterVisitor._build_parameter` for an `ast.arg`: wrap into a
canonical `Parameter` with the visited default and the visited
annotation (`Empty` when absent/falsy). -/
def buildParameter (p : RawArg) (dflt : Node) : Node :=
  .parameter p.arg dflt
    (match p.ann with
     | none => .empty
     | some e => visitRawExpr e)
    p.lineno p.col_offset

/-- Model of `visit_arguments._build_args(params, defaults)`: right-align the
defaults by left-padding with `Empty` (the loop above; fuel
`params.length` covers every terminating run), then pair each parameter
with its default.  `none` = the non-terminating mismatch case. -/
def buildArgs (params : List RawArg) (defaults : List RawExpr) :
    Option (List Node) :=
  match padLoop params.length (defaults.map .raw) params.length with
  | none => none
  | some padded =>
      some (List.zipWith (fun p d => buildParameter p (visitDefaultSlot d))
        params padded)

/-- Model of `visit_arguments._build_variadic`: an absent variadic is falsy and
yields `Empty`; a present one becomes a `Parameter` with `Empty`
default and its visited annotation. -/
def buildVariadic : Option RawArg → Node
  | none => .empty
  | some a =>
      .parameter a.arg .empty
        (match a.ann with
         | none => .empty
         | some e => visitRawExpr e)
        a.lineno a.col_offset

/-- A raw `ast.arguments` record (Python 3 shape; `kw_defaults` entries
that are `None` in CPython's ast are outside the modelled fragment). -/
structure RawArguments where
  args : List RawArg
  defaults : List RawExpr
  vararg : Option RawArg
  kwarg : Option RawArg
  kwonlyargs : List RawArg
  kw_defaults : List RawExpr

/-- Model of `TreeRebuilder.visit_arguments`: positional and keyword-only
parameter lists through `_build_args`, variadics through
`_build_variadic`, `positional_only=[]`. -/
def visitArguments (ra : RawArguments) : Option Node := do
  let pos ← buildArgs ra.args ra.defaults
  let kwo ← buildArgs ra.kwonlyargs ra.kw_defaults
  pure (.arguments pos (buildVariadic ra.vararg) (buildVariadic ra.kwarg)
    kwo [])

/-! ## Concrete trees used by the claims -/

/-- First handler of the spec's try/except snippet:
`except IOError:` on line 3 with body `pass` on line 4. -/
def tryHandler1 : Node :=
  .exceptHandler (.name "IOError" (some 3) (some 7)) .empty
    [.pass (some 4) (some 2)] (some 3) (some 0)

/-- Second handler: `except UnicodeError:` on line 5 with body
`print()` on line 6. -/
def tryHandler2 : Node :=
  .exceptHandler (.name "UnicodeError" (some 5) (some 7)) .empty
    [.expr (.call (.name "print" (some 6) (some 2)) [] [] (some 6) (some 2))
       (some 6) (some 2)]
    (some 5) (some 0)

/-- The spec's try/except/else snippet with `try:` on line 1,
`print('a')` on line 2, the two handlers above, `else:` on line 7 and
its body `print()` on line 8. -/
def tryNode : Node :=
  .tryExcept
    [.expr (.call (.name "print" (some 2) (some 2))
        [.const (.strV "a") (some 2) (some 8)] [] (some 2) (some 2))
       (some 2) (some 2)]
    [tryHandler1, tryHandler2]
    [.expr (.call (.name "print" (some 8) (some 2)) [] [] (some 8) (some 2))
       (some 8) (some 2)]
    (some 1) (some 0)

/-- Tree for `for i in xs:` on line 1, body `pass` on line 2, `else:` on line 3
with body `pass` on line 4 (used against the shared sub-rule claim). -/
def forNode : Node :=
  .forN (.assignName "i" (some 1) (some 4)) (.name "xs" (some 1) (some 9))
    [.pass (some 2) (some 2)] [.pass (some 4) (some 2)] (some 1) (some 0)

/-- Tree for `if x:` on line 1, body `pass` on line 2, `else:` on line 3 with
body `pass` on line 4 (used against the shared sub-rule claim). -/
def ifNode : Node :=
  .ifN (.name "x" (some 1) (some 3)) [.pass (some 2) (some 2)]
    [.pass (some 4) (some 2)] (some 1) (some 0)

/-- The `Parameter` node for `a=b` of `def test(a=b): pass` as the
rebuilder produces it: default `Name('b')`, no annotation. -/
def paramA : Node :=
  .parameter "a" (.name "b" (some 1) (some 11)) .empty (some 1) (some 9)

/-- The `Arguments` node of `def test(a=b): pass`. -/
def argsTest : Node := .arguments [paramA] .empty .empty [] []

/-- The `FunctionDef` node of `def test(a=b): pass` (body `pass`, no
decorators, no return annotation). -/
def funcTest : Node :=
  .functionDef "test" none argsTest [.pass (some 1) (some 17)] .empty .empty
    (some 1) (some 0)

/-- The module holding `def test(a=b): pass`. -/
def moduleTest : Node := .module "" none false true none none [funcTest]

/-- The zipper navigation from the root of `moduleTest` down to the
`Name('b')` default value: into the module body, to the function, into
its children past `decorators` to `args`, into the parameter list, to
the parameter, and to its first child slot (the default). -/
def nameBZipper : Option Zipper :=
  (Zipper.mk (.node moduleTest) []).down >>= Zipper.down >>= Zipper.down >>=
    Zipper.right >>= Zipper.down >>= Zipper.down >>= Zipper.down

/-- The raw `ast.arguments` of `def f(a, b, c=1): pass`: three plain
parameters, one default. -/
def rawArgsABC : RawArguments :=
  ⟨[⟨"a", none, some 1, some 6⟩, ⟨"b", none, some 1, some 9⟩,
    ⟨"c", none, some 1, some 12⟩],
   [.num 1 (some 1) (some 14)], none, none, [], []⟩

/-! ## Theorems -/

/-- C2 (counterexample): on the spec's try/except/else snippet with
`try:` on line 1, the code returns `(1, 1)` for line 1 (the handler
scan does not fire and `_elsed_block_range` hits its first guard
`lineno == self.fromlineno`) and `(3, 3)` for line 3 (line 3 is the
first handler's exception-type line, a single-line range) — not the
claimed `(1, 7)` and `(3, 4)`. -/
theorem c2_counterexample :
    tryNode.blockRange 1 = some (1, some 1) ∧
    tryNode.blockRange 3 = some (3, some 3) ∧
    ¬(tryNode.blockRange 1 = some (1, some 7) ∧
      tryNode.blockRange 3 = some (3, some 4)) := by
  decide

/-- C2 (amended): on the spec's snippet, `block_range(try_node, 1)`
returns `(1, 1)`, `block_range(try_node, 3)` returns `(3, 3)`, and
`block_range(try_node, 5)` returns `(5, 5)`. -/
theorem c2_blockRange_values :
    tryNode.blockRange 1 = some (1, some 1) ∧
    tryNode.blockRange 3 = some (3, some 3) ∧
    tryNode.blockRange 5 = some (5, some 5) := by
  decide

/-- C4: the defaults-padding loop of `visit_arguments._build_args` never
terminates when the default list is longer than the parameter list —
each iteration only grows the deque, so no amount of fuel makes it
finish (first conjunct), and in particular rebuilding a parameter list
of one parameter with two defaults never produces a result (second
conjunct).  The code therefore hangs instead of signalling the
structural build error the claim describes. -/
theorem c4_padding_nonterminating :
    (∀ (fuel plen : Nat) (defaults : List DefaultSlot),
      plen < defaults.length → padLoop fuel defaults plen = none) ∧
    buildArgs [⟨"a", none, some 1, some 6⟩]
      [.num 1 none none, .num 2 none none] = none := by
  constructor
  · intro fuel
    induction fuel with
    | zero =>
      intro plen defaults h
      simp only [padLoop]
      rw [if_neg (by omega)]
    | succ n ih =>
      intro plen defaults h
      simp only [padLoop]
      rw [if_neg (by omega)]
      exact ih plen (.empty :: defaults) (by simp; omega)
  · rfl

/-- C4 (witness): the non-termination theorem applied at one parameter
and two defaults, fuel 5. -/
theorem c4_padding_nonterminating_witness :
    (1 : Nat) <
      ([DefaultSlot.raw (.num 1 none none),
        DefaultSlot.raw (.num 2 none none)]).length ∧
    padLoop 5
      [DefaultSlot.raw (.num 1 none none),
       DefaultSlot.raw (.num 2 none none)] 1 = none :=
  ⟨by simp, c4_padding_nonterminating.1 5 1 _ (by simp)⟩

/-- C5: rebuilding the parameter list of `def f(a, b, c=1): pass` pads
the single default on the left with two `Empty` sentinels (second
conjunct) and yields an `Arguments` node whose parameters are
`[a, b, c]` with per-parameter defaults `[Empty, Empty, Const 1]`
(first conjunct). -/
theorem c5_default_padding :
    visitArguments rawArgsABC = some (.arguments
      [.parameter "a" .empty .empty (some 1) (some 6),
       .parameter "b" .empty .empty (some 1) (some 9),
       .parameter "c" (.const (.intV 1) (some 1) (some 14)) .empty
         (some 1) (some 12)]
      .empty .empty [] []) ∧
    padLoop 3 ([RawExpr.num 1 (some 1) (some 14)].map .raw) 3 =
      some [.empty, .empty, .raw (.num 1 (some 1) (some 14))] :=
  ⟨rfl, rfl⟩

/-- C6: `visit_name` classifies a raw identifier by context — delete
context gives `DelName`, store context gives `AssignName` (both even
for reserved singleton spellings, since those branches are checked
first), and load context gives `NameConstant` exactly for identifiers
in `BUILTIN_NAMES` and `Name` otherwise. -/
theorem c6_visit_name (id : String) (l c : Option Int) :
    (visitName id .Del l c = .delName id l c) ∧
    (visitName id .Store l c = .assignName id l c) ∧
    (∀ v, BUILTIN_NAMES.lookup id = some v →
      visitName id .Load l c = .nameConstant v l c) ∧
    (BUILTIN_NAMES.lookup id = none → visitName id .Load l c = .name id l c) := by
  refine ⟨rfl, rfl, ?_, ?_⟩
  · intro v h
    simp [visitName, h]
  · intro h
    simp [visitName, h]

/-- C6 (witness): `True` in load context becomes the constant, in store
context it stays an `AssignName`; an ordinary identifier in load
context becomes a `Name`. -/
theorem c6_visit_name_witness :
    visitName "True" .Load none none = .nameConstant (.boolV true) none none ∧
    visitName "True" .Store none none = .assignName "True" none none ∧
    visitName "x" .Load none none = .name "x" none none :=
  ⟨(c6_visit_name "True" none none).2.2.1 _ rfl,
   (c6_visit_name "True" none none).2.1,
   (c6_visit_name "x" none none).2.2.2 rfl⟩

/-! Helper lemmas about `make_node` reconstruction. -/

lemma focus_node_asNode {a : Focus} (h : a.isSeq = false) :
    Focus.node a.asNode = a := by
  cases a <;> simp_all [Focus.isSeq, Focus.asNode]

lemma focus_seq_asSeq {a : Focus} (h : a.isSeq = true) :
    Focus.seq a.asSeq = a := by
  cases a <;> simp_all [Focus.isSeq, Focus.asSeq]

lemma map_isSeq_eq_nil {cs : List Focus} (h : cs.map Focus.isSeq = []) :
    cs = [] := by
  cases cs <;> simp_all

lemma map_isSeq_eq_cons {cs : List Focus} {b : Bool} {bs : List Bool}
    (h : cs.map Focus.isSeq = b :: bs) :
    ∃ a tl, cs = a :: tl ∧ a.isSeq = b ∧ tl.map Focus.isSeq = bs := by
  cases cs with
  | nil => simp at h
  | cons a tl => exact ⟨a, tl, rfl, by simp_all, by simp_all⟩

lemma map_asNode_of_nodes (cs : List Focus)
    (h : cs.all (fun e => !e.isSeq) = true) :
    (cs.map Focus.asNode).map Focus.node = cs := by
  induction cs with
  | nil => rfl
  | cons a tl ih =>
    simp only [List.all_cons, Bool.and_eq_true, Bool.not_eq_true'] at h
    simp only [List.map]
    exact List.cons_eq_cons.mpr ⟨focus_node_asNode h.1, ih h.2⟩

/-- Lemma: `make_node` keeps the ancestor's variant (a sequence stays a
sequence, a node keeps its tag). -/
lemma makeNode_tagF (f : Focus) (cs : List Focus) :
    (makeNode f cs).tagF = f.tagF := by
  cases f with
  | seq s => rfl
  | node n => cases n <;> rfl

/-- When the sibling list has the arity and node/sequence shapes of the
ancestor's child slots, the reconstructed ancestor's children are
exactly that sibling list. -/
lemma makeNode_children (f : Focus) (cs : List Focus)
    (h : shapeOk f cs = true) : (makeNode f cs).children = cs := by
  cases f with
  | seq s =>
    simp only [shapeOk] at h
    simp only [makeNode, Focus.children]
    exact map_asNode_of_nodes cs h
  | node n =>
    have h' : cs.map Focus.isSeq = n.childFocuses.map Focus.isSeq := by
      simpa [shapeOk] using h
    cases n with
    | empty =>
      obtain rfl := map_isSeq_eq_nil (by simpa [Node.childFocuses] using h')
      rfl
    | module nm doc pk pp sc sf body =>
      simp only [Node.childFocuses, List.map] at h'
      obtain ⟨a, t1, rfl, ha, h1⟩ := map_isSeq_eq_cons h'
      obtain rfl := map_isSeq_eq_nil h1
      simp [makeNode, makeNode.setFields, Focus.children, Node.childFocuses,
        List.getD, focus_seq_asSeq ha]
    | functionDef nm doc args body dec ret l c =>
      simp only [Node.childFocuses, List.map] at h'
      obtain ⟨a, t1, rfl, ha, h1⟩ := map_isSeq_eq_cons h'
      obtain ⟨b, t2, rfl, hb, h2⟩ := map_isSeq_eq_cons h1
      obtain ⟨d, t3, rfl, hd, h3⟩ := map_isSeq_eq_cons h2
      obtain ⟨e, t4, rfl, he, h4⟩ := map_isSeq_eq_cons h3
      obtain rfl := map_isSeq_eq_nil h4
      simp [makeNode, makeNode.setFields, Focus.children, Node.childFocuses,
        List.getD, focus_node_asNode ha, focus_node_asNode hb,
        focus_seq_asSeq hd, focus_node_asNode he]
    | arguments args vararg kwarg kwonly posonly =>
      simp only [Node.childFocuses, List.map] at h'
      obtain ⟨a, t1, rfl, ha, h1⟩ := map_isSeq_eq_cons h'
      obtain ⟨b, t2, rfl, hb, h2⟩ := map_isSeq_eq_cons h1
      obtain ⟨d, t3, rfl, hd, h3⟩ := map_isSeq_eq_cons h2
      obtain ⟨e, t4, rfl, he, h4⟩ := map_isSeq_eq_cons h3
      obtain ⟨g, t5, rfl, hg, h5⟩ := map_isSeq_eq_cons h4
      obtain rfl := map_isSeq_eq_nil h5
      simp [makeNode, makeNode.setFields, Focus.children, Node.childFocuses,
        List.getD, focus_seq_asSeq ha, focus_node_asNode hb,
        focus_node_asNode hd, focus_seq_asSeq he, focus_seq_asSeq hg]
    | parameter nm dflt ann l c =>
      simp only [Node.childFocuses, List.map] at h'
      obtain ⟨a, t1, rfl, ha, h1⟩ := map_isSeq_eq_cons h'
      obtain ⟨b, t2, rfl, hb, h2⟩ := map_isSeq_eq_cons h1
      obtain rfl := map_isSeq_eq_nil h2
      simp [makeNode, makeNode.setFields, Focus.children, Node.childFocuses,
        List.getD, focus_node_asNode ha, focus_node_asNode hb]
    | name nm l c =>
      obtain rfl := map_isSeq_eq_nil (by simpa [Node.childFocuses] using h')
      rfl
    | assignName nm l c =>
      obtain rfl := map_isSeq_eq_nil (by simpa [Node.childFocuses] using h')
      rfl
    | delName nm l c =>
      obtain rfl := map_isSeq_eq_nil (by simpa [Node.childFocuses] using h')
      rfl
    | const v l c =>
      obtain rfl := map_isSeq_eq_nil (by simpa [Node.childFocuses] using h')
      rfl
    | nameConstant v l c =>
      obtain rfl := map_isSeq_eq_nil (by simpa [Node.childFocuses] using h')
      rfl
    | pass l c =>
      obtain rfl := map_isSeq_eq_nil (by simpa [Node.childFocuses] using h')
      rfl
    | expr v l c =>
      simp only [Node.childFocuses, List.map] at h'
      obtain ⟨a, t1, rfl, ha, h1⟩ := map_isSeq_eq_cons h'
      obtain rfl := map_isSeq_eq_nil h1
      simp [makeNode, makeNode.setFields, Focus.children, Node.childFocuses,
        List.getD, focus_node_asNode ha]
    | call fn args kws l c =>
      simp only [Node.childFocuses, List.map] at h'
      obtain ⟨a, t1, rfl, ha, h1⟩ := map_isSeq_eq_cons h'
      obtain ⟨b, t2, rfl, hb, h2⟩ := map_isSeq_eq_cons h1
      obtain ⟨d, t3, rfl, hd, h3⟩ := map_isSeq_eq_cons h2
      obtain rfl := map_isSeq_eq_nil h3
      simp [makeNode, makeNode.setFields, Focus.children, Node.childFocuses,
        List.getD, focus_node_asNode ha, focus_seq_asSeq hb, focus_seq_asSeq hd]
    | tryExcept body handlers orelse l c =>
      simp only [Node.childFocuses, List.map] at h'
      obtain ⟨a, t1, rfl, ha, h1⟩ := map_isSeq_eq_cons h'
      obtain ⟨b, t2, rfl, hb, h2⟩ := map_isSeq_eq_cons h1
      obtain ⟨d, t3, rfl, hd, h3⟩ := map_isSeq_eq_cons h2
      obtain rfl := map_isSeq_eq_nil h3
      simp [makeNode, makeNode.setFields, Focus.children, Node.childFocuses,
        List.getD, focus_seq_asSeq ha, focus_seq_asSeq hb, focus_seq_asSeq hd]
    | exceptHandler ty nm body l c =>
      simp only [Node.childFocuses, List.map] at h'
      obtain ⟨a, t1, rfl, ha, h1⟩ := map_isSeq_eq_cons h'
      obtain ⟨b, t2, rfl, hb, h2⟩ := map_isSeq_eq_cons h1
      obtain ⟨d, t3, rfl, hd, h3⟩ := map_isSeq_eq_cons h2
      obtain rfl := map_isSeq_eq_nil h3
      simp [makeNode, makeNode.setFields, Focus.children, Node.childFocuses,
        List.getD, focus_node_asNode ha, focus_node_asNode hb, focus_seq_asSeq hd]
    | tryFinally body finalbody l c =>
      simp only [Node.childFocuses, List.map] at h'
      obtain ⟨a, t1, rfl, ha, h1⟩ := map_isSeq_eq_cons h'
      obtain ⟨b, t2, rfl, hb, h2⟩ := map_isSeq_eq_cons h1
      obtain rfl := map_isSeq_eq_nil h2
      simp [makeNode, makeNode.setFields, Focus.children, Node.childFocuses,
        List.getD, focus_seq_asSeq ha, focus_seq_asSeq hb]
    | forN tgt it body orelse l c =>
      simp only [Node.childFocuses, List.map] at h'
      obtain ⟨a, t1, rfl, ha, h1⟩ := map_isSeq_eq_cons h'
      obtain ⟨b, t2, rfl, hb, h2⟩ := map_isSeq_eq_cons h1
      obtain ⟨d, t3, rfl, hd, h3⟩ := map_isSeq_eq_cons h2
      obtain ⟨e, t4, rfl, he, h4⟩ := map_isSeq_eq_cons h3
      obtain rfl := map_isSeq_eq_nil h4
      simp [makeNode, makeNode.setFields, Focus.children, Node.childFocuses,
        List.getD, focus_node_asNode ha, focus_node_asNode hb,
        focus_seq_asSeq hd, focus_seq_asSeq he]
    | whileN test body orelse l c =>
      simp only [Node.childFocuses, List.map] at h'
      obtain ⟨a, t1, rfl, ha, h1⟩ := map_isSeq_eq_cons h'
      obtain ⟨b, t2, rfl, hb, h2⟩ := map_isSeq_eq_cons h1
      obtain ⟨d, t3, rfl, hd, h3⟩ := map_isSeq_eq_cons h2
      obtain rfl := map_isSeq_eq_nil h3
      simp [makeNode, makeNode.setFields, Focus.children, Node.childFocuses,
        List.getD, focus_node_asNode ha, focus_seq_asSeq hb, focus_seq_asSeq hd]
    | ifN test body orelse l c =>
      simp only [Node.childFocuses, List.map] at h'
      obtain ⟨a, t1, rfl, ha, h1⟩ := map_isSeq_eq_cons h'
      obtain ⟨b, t2, rfl, hb, h2⟩ := map_isSeq_eq_cons h1
      obtain ⟨d, t3, rfl, hd, h3⟩ := map_isSeq_eq_cons h2
      obtain rfl := map_isSeq_eq_nil h3
      simp [makeNode, makeNode.setFields, Focus.children, Node.childFocuses,
        List.getD, focus_node_asNode ha, focus_seq_asSeq hb, focus_seq_asSeq hd]
    | decorators ns l c =>
      simp only [Node.childFocuses, List.map] at h'
      obtain ⟨a, t1, rfl, ha, h1⟩ := map_isSeq_eq_cons h'
      obtain rfl := map_isSeq_eq_nil h1
      simp [makeNode, makeNode.setFields, Focus.children, Node.childFocuses,
        List.getD, focus_seq_asSeq ha]

/-- C1: on a dirty cursor (innermost path namedtuple has `changed` set)
with a saved ancestor, `up()` returns — without signalling — the cursor
whose focus is the ancestor freshly rebuilt by `make_node` from the
full sibling sequence `reverse(left) ++ focus :: right` and whose path
is the parent path with the dirty flag pushed up.  The rebuilt focus
has the ancestor's variant, and (for a well-shaped sibling sequence)
its child slots are exactly that sibling sequence. -/
theorem c1_up_dirty (z : Zipper) (fr : Frame) (rest : List Frame)
    (anc : Focus) (pn : List Focus)
    (hp : z.path = fr :: rest) (hch : fr.changed = true)
    (hpn : fr.parent_nodes = anc :: pn) :
    z.up = some ⟨makeNode anc (fr.left.reverse ++ z.focus :: fr.right),
      markChanged rest⟩ ∧
    (makeNode anc (fr.left.reverse ++ z.focus :: fr.right)).tagF = anc.tagF ∧
    (shapeOk anc (fr.left.reverse ++ z.focus :: fr.right) = true →
      (makeNode anc (fr.left.reverse ++ z.focus :: fr.right)).children =
        fr.left.reverse ++ z.focus :: fr.right) := by
  refine ⟨?_, makeNode_tagF _ _, makeNode_children _ _⟩
  obtain ⟨foc, path⟩ := z
  obtain ⟨l, r, pns, ch⟩ := fr
  have hp' : path = ⟨l, r, pns, ch⟩ :: rest := hp
  subst hp'
  have hch' : ch = true := hch
  subst hch'
  have hpn' : pns = anc :: pn := hpn
  subst hpn'
  rfl

/-- C1 (witness): replacing the single element of a one-element sibling
sequence and going up rebuilds the sequence with the replacement. -/
theorem c1_up_dirty_witness :
    Zipper.up ⟨.node (.pass (some 9) (some 0)),
        [⟨[], [], [.seq [.pass (some 2) (some 2)]], true⟩]⟩ =
      some ⟨.seq [.pass (some 9) (some 0)], []⟩ ∧
    shapeOk (.seq [.pass (some 2) (some 2)])
      [.node (.pass (some 9) (some 0))] = true ∧
    (Focus.seq [.pass (some 9) (some 0)]).children =
      [.node (.pass (some 9) (some 0))] :=
  ⟨(c1_up_dirty ⟨.node (.pass (some 9) (some 0)),
      [⟨[], [], [.seq [.pass (some 2) (some 2)]], true⟩]⟩
      ⟨[], [], [.seq [.pass (some 2) (some 2)]], true⟩ []
      (.seq [.pass (some 2) (some 2)]) [] rfl rfl rfl).1,
   by decide,
   (c1_up_dirty ⟨.node (.pass (some 9) (some 0)),
      [⟨[], [], [.seq [.pass (some 2) (some 2)]], true⟩]⟩
      ⟨[], [], [.seq [.pass (some 2) (some 2)]], true⟩ []
      (.seq [.pass (some 2) (some 2)]) [] rfl rfl rfl).2.2 (by decide)⟩

/-- C9: for any cursor, `down()` (when available) followed by `up()`
returns exactly the original cursor: `down` pushes the focus itself
onto `parent_nodes` with a clean `changed` flag, so `up` hands back the
very same focus object and the original path. -/
theorem c9_down_up (z d : Zipper) (h : z.down = some d) : d.up = some z := by
  obtain ⟨f, p⟩ := z
  cases p with
  | nil =>
    simp only [Zipper.down] at h
    cases hc : Focus.children f with
    | nil => rw [hc] at h; cases h
    | cons first rest =>
      rw [hc] at h
      cases h
      rfl
  | cons fr prest =>
    simp only [Zipper.down] at h
    cases hc : Focus.children f with
    | nil => rw [hc] at h; cases h
    | cons first rest =>
      rw [hc] at h
      cases h
      rfl

/-- C9 (witness): descending from the root of `moduleTest` to its body
sequence and returning restores the identical cursor. -/
theorem c9_down_up_witness :
    (Zipper.mk (.node moduleTest) []).down =
      some ⟨.seq [funcTest], [⟨[], [], [.node moduleTest], false⟩]⟩ ∧
    Zipper.up ⟨.seq [funcTest], [⟨[], [], [.node moduleTest], false⟩]⟩ =
      some ⟨.node moduleTest, []⟩ :=
  ⟨rfl, c9_down_up ⟨.node moduleTest, []⟩ _ rfl⟩

/-- C7: in `def test(a=b): pass`, the zipper navigated to the `Name b`
default value has that name as its focus (first conjunct), and its
scope resolution returns the cursor at the `Module` root (second
conjunct) — not at the function `test` (third conjunct): the
`Parameter`-parent special case skips three levels past the parameter
list and the function before taking the scope. -/
theorem c7_default_scope :
    nameBZipper.map Zipper.focus = some (.node (.name "b" (some 1) (some 11))) ∧
    (nameBZipper >>= Zipper.scope) = some ⟨.node moduleTest, []⟩ ∧
    (nameBZipper >>= Zipper.scope).map Zipper.focus ≠ some (.node funcTest) := by
  refine ⟨rfl, rfl, ?_⟩
  intro h
  rw [show (nameBZipper >>= Zipper.scope) = some ⟨.node moduleTest, []⟩
    from rfl] at h
  simp [moduleTest, funcTest] at h

/-- C3 (counterexample): `For` does not override `block_range`, so on a
`for` with an `else` branch the queried first line yields the default
`(line, node's last line)` range `(1, 4)`, not the claimed single-line
`(1, 1)`; and `If.block_range` checks body containment before the
shared rule, so the `if` node's own first line yields `(1, 2)` (ending
at the body's last line), not the claimed `(1, 1)`. -/
theorem c3_counterexample :
    forNode.blockRange 1 = some (1, some 4) ∧
    forNode.blockRange 1 ≠ some (1, some 1) ∧
    ifNode.blockRange 1 = some (1, some 2) ∧
    ifNode.blockRange 1 ≠ some (1, some 1) := by
  decide

/-- C3 (amended): `While` follows the shared sub-rule exactly: the
node's first line yields a single-line range; with no `else` the range
ends at the node's last line; a line before the `else` ends at the line
before it; a line at or past the `else` ends at the `else` body's last
line.  `TryFinally` delegates to the same `_elsed_block_range` against
`finalbody` whenever its body does not start with a try/except.  `If`
first returns a single-line range when the queried line equals the
*body's* first line, then a range ending at the body's last line for
any line not past the body (including the `if` line itself), and only
past the body falls through to the shared rule with
`body[0].fromlineno - 1` as fallback.  `For` has no override and always
returns the default `(line, node's last line)`. -/
theorem c3_blockRange_rules :
    (∀ (test : Node) (body orelse : List Node) (l : Int) (c : Option Int)
        (q : Int),
      (q = l → (Node.whileN test body orelse (some l) c).blockRange q
          = some (q, some q)) ∧
      (q ≠ l → orelse = [] →
        (Node.whileN test body orelse (some l) c).blockRange q
          = some (q, (Node.whileN test body orelse (some l) c).tolineno)) ∧
      (∀ o0 os f ol, q ≠ l → orelse = o0 :: os → o0.fromlineno = some f →
        orelse.getLast? = some ol →
        (f ≤ q → (Node.whileN test body orelse (some l) c).blockRange q
            = some (q, ol.tolineno)) ∧
        (q < f → (Node.whileN test body orelse (some l) c).blockRange q
            = some (q, some (f - 1))))) ∧
    (∀ (body finalbody : List Node) (l c : Option Int) (q : Int)
        (child : Node) (rest : List Node),
      body = child :: rest → child.isTryExcept = false →
      (Node.tryFinally body finalbody l c).blockRange q
        = elsedBlockRange l (Node.tryFinally body finalbody l c).tolineno q
            finalbody none) ∧
    (∀ (test : Node) (body orelse : List Node) (l c : Option Int) (q : Int)
        (b0n : Node), body.head? = some b0n →
      (b0n.fromlineno = some q →
        (Node.ifN test body orelse l c).blockRange q = some (q, some q)) ∧
      (∀ bln bl b0, ¬b0n.fromlineno = some q → body.getLast? = some bln →
        bln.tolineno = some bl → b0n.fromlineno = some b0 →
        (q ≤ bl → (Node.ifN test body orelse l c).blockRange q
            = some (q, some bl)) ∧
        (bl < q → (Node.ifN test body orelse l c).blockRange q
            = elsedBlockRange l (Node.ifN test body orelse l c).tolineno q
                orelse (some (b0 - 1))))) ∧
    (∀ (tgt it : Node) (body orelse : List Node) (l c : Option Int) (q : Int),
      (Node.forN tgt it body orelse l c).blockRange q
        = some (q, (Node.forN tgt it body orelse l c).tolineno)) := by
  refine ⟨?_, ?_, ?_, ?_⟩
  · intro test body orelse l c q
    refine ⟨?_, ?_, ?_⟩
    · intro h
      subst h
      simp [Node.blockRange, Node.linenoAttr, elsedBlockRange]
    · intro h ho
      subst ho
      simp only [Node.blockRange, Node.linenoAttr, elsedBlockRange]
      rw [if_neg (by simp; omega)]
      simp [pyOr]
    · intro o0 os f ol h ho hf hl
      subst ho
      constructor
      · intro hfq
        simp only [Node.blockRange, Node.linenoAttr, elsedBlockRange]
        rw [if_neg (by simp; omega)]
        simp only [hf, hl]
        rw [if_pos (by omega)]
      · intro hqf
        simp only [Node.blockRange, Node.linenoAttr, elsedBlockRange]
        rw [if_neg (by simp; omega)]
        simp only [hf]
        rw [if_neg (by omega)]
  · intro body finalbody l c q child rest hb hte
    subst hb
    simp [Node.blockRange, tfBlockRange, Node.linenoAttr, hte]
  · intro test body orelse l c q b0n hb
    constructor
    · intro hq
      simp [Node.blockRange, ifBlockRange, Node.linenoAttr, hb, hq]
    · intro bln bl b0 hne hlast htl hfrom
      constructor
      · intro hle
        simp [Node.blockRange, ifBlockRange, Node.linenoAttr, hb, hne, hlast,
          htl, hle]
      · intro hlt
        simp only [Node.blockRange, ifBlockRange, Node.linenoAttr, hb]
        rw [if_neg hne]
        simp only [hlast, htl, hfrom]
        rw [if_neg (by omega)]
  · intro tgt it body orelse l c q
    rfl

/-- C3 (witness): the amended rules applied concretely — a `while` with
an `else` queried at its first line gives a single-line range, the
`for` from the counterexample gives the default range, and a
`try/finally` whose body is a `pass` delegates to the shared rule. -/
theorem c3_blockRange_rules_witness :
    (Node.whileN (.name "x" (some 1) (some 7)) [.pass (some 2) (some 2)]
      [.pass (some 4) (some 2)] (some 1) (some 0)).blockRange 1
        = some (1, some 1) ∧
    forNode.blockRange 2 = some (2, forNode.tolineno) ∧
    (Node.tryFinally [.pass (some 2) (some 2)] [.pass (some 4) (some 2)]
      (some 1) (some 0)).blockRange 3
        = elsedBlockRange (some 1)
            (Node.tryFinally [.pass (some 2) (some 2)] [.pass (some 4) (some 2)]
              (some 1) (some 0)).tolineno 3 [.pass (some 4) (some 2)] none :=
  ⟨(c3_blockRange_rules.1 (.name "x" (some 1) (some 7))
      [.pass (some 2) (some 2)] [.pass (some 4) (some 2)] 1 (some 0) 1).1 rfl,
   c3_blockRange_rules.2.2.2 (.assignName "i" (some 1) (some 4))
     (.name "xs" (some 1) (some 9)) [.pass (some 2) (some 2)]
     [.pass (some 4) (some 2)] (some 1) (some 0) 2,
   c3_blockRange_rules.2.1 [.pass (some 2) (some 2)] [.pass (some 4) (some 2)]
     (some 1) (some 0) 3 (.pass (some 2) (some 2)) [] rfl rfl⟩

/-! Helper lemmas about the handler scan of `TryExcept.block_range`. -/

lemma teLoop_skip (lineno : Int) (h : Node) (rest : List Node)
    (last : Option Int) (hs : HandlerSkips lineno h) :
    teLoop lineno (h :: rest) last
      = teLoop lineno rest (last <|> (handlerB0 h).map (· - 1)) := by
  obtain ⟨ty, nm, body, l, c, b0n, b0, bln, bl, rfl, hty, hh, hb0, hlast, hbl,
    hnr⟩ := hs
  simp only [teLoop]
  rw [if_neg (by simp [hty])]
  simp only [hh, hb0]
  by_cases hc : b0 ≤ lineno
  · rw [if_pos hc]
    simp only [hlast, hbl]
    rw [if_neg (fun hle => hnr ⟨hc, hle⟩)]
    simp [handlerB0, hh, hb0]
  · rw [if_neg hc]
    simp [handlerB0, hh, hb0]

lemma preLast_some (y : Int) (t : List Node) : preLast (some y) t = some y := by
  induction t with
  | nil => rfl
  | cons h tl ih => simpa [preLast] using ih

lemma teLoop_skip_front (lineno : Int) (rest : List Node) :
    ∀ (pre : List Node) (last : Option Int),
      (∀ h ∈ pre, HandlerSkips lineno h) →
      teLoop lineno (pre ++ rest) last = teLoop lineno rest (preLast last pre)
  | [], last, _ => rfl
  | h :: t, last, hall => by
    rw [List.cons_append, teLoop_skip lineno h (t ++ rest) last
      (hall h (by simp))]
    rw [teLoop_skip_front lineno rest t _ (fun h' hm => hall h' (by simp [hm]))]
    rfl

/-- C8: `TryExcept.block_range` scans the handlers in order.  (a) When
the scan reaches a handler whose truthy exception-type expression
starts at the queried line, the result is the single-line range.
(b) When it reaches a handler whose body span contains the queried line
(and that handler's type check does not fire), the result ends at that
body's last line.  (c) When every handler is passed over, the result is
`_elsed_block_range` with fallback `last` set to the line before the
first handler's body. -/
theorem c8_tryexcept_scan :
    (∀ (selfF selfT : Option Int) (lineno : Int) (orelse pre post : List Node)
        (ty nm : Node) (body : List Node) (l c : Option Int),
      (∀ h ∈ pre, HandlerSkips lineno h) →
      ty.truthy = true → ty.fromlineno = some lineno →
      teBlockRange selfF selfT lineno
        (pre ++ .exceptHandler ty nm body l c :: post) orelse
        = some (lineno, some lineno)) ∧
    (∀ (selfF selfT : Option Int) (lineno : Int) (orelse pre post : List Node)
        (ty nm : Node) (body : List Node) (l c : Option Int) (b0n bln : Node)
        (b0 bl : Int),
      (∀ h ∈ pre, HandlerSkips lineno h) →
      (ty.truthy && decide (ty.fromlineno = some lineno)) = false →
      body.head? = some b0n → b0n.fromlineno = some b0 →
      body.getLast? = some bln → bln.tolineno = some bl →
      b0 ≤ lineno → lineno ≤ bl →
      teBlockRange selfF selfT lineno
        (pre ++ .exceptHandler ty nm body l c :: post) orelse
        = some (lineno, some bl)) ∧
    (∀ (selfF selfT : Option Int) (lineno : Int) (orelse : List Node)
        (h1 : Node) (hs : List Node) (b01 : Int),
      (∀ h ∈ h1 :: hs, HandlerSkips lineno h) →
      handlerB0 h1 = some b01 →
      teBlockRange selfF selfT lineno (h1 :: hs) orelse
        = elsedBlockRange selfF selfT lineno orelse (some (b01 - 1))) := by
  refine ⟨?_, ?_, ?_⟩
  · intro selfF selfT lineno orelse pre post ty nm body l c hpre hty hfrom
    simp only [teBlockRange]
    rw [teLoop_skip_front lineno _ pre none hpre]
    simp only [teLoop]
    rw [if_pos (by simp [hty, hfrom])]
  · intro selfF selfT lineno orelse pre post ty nm body l c b0n bln b0 bl hpre
      htyf hh hb0 hlast hbl hble hlbl
    simp only [teBlockRange]
    rw [teLoop_skip_front lineno _ pre none hpre]
    simp only [teLoop]
    rw [if_neg (by simp [htyf])]
    simp only [hh, hb0]
    rw [if_pos hble]
    simp only [hlast, hbl]
    rw [if_pos hlbl]
  · intro selfF selfT lineno orelse h1 hs b01 hall hb01
    simp only [teBlockRange]
    rw [teLoop_skip lineno h1 hs none (hall h1 (by simp)), hb01]
    have : teLoop lineno (hs ++ []) (some (b01 - 1))
        = teLoop lineno [] (preLast (some (b01 - 1)) hs) :=
      teLoop_skip_front lineno [] hs _ (fun h' hm => hall h' (by simp [hm]))
    rw [List.append_nil] at this
    simp only [Option.none_orElse]
    rw [show Option.map (fun x => x - 1) (some b01) = some (b01 - 1) from rfl,
      this]
    simp only [teLoop, preLast_some]

/-- C8 (witness): on the spec snippet's handler list, line 3 matches
the first handler's exception-type line and yields `(3, 3)` (clause a);
line 4 lies in the first handler's body and yields `(4, 4)` (clause b);
line 7 matches no handler and falls through to `_elsed_block_range`
with fallback `last = 3` (clause c). -/
theorem c8_tryexcept_scan_witness :
    teBlockRange (some 1) (some 8) 3 [tryHandler1, tryHandler2]
      [.expr (.call (.name "print" (some 8) (some 2)) [] [] (some 8) (some 2))
        (some 8) (some 2)] = some (3, some 3) ∧
    teBlockRange (some 1) (some 8) 4 [tryHandler1, tryHandler2]
      [.expr (.call (.name "print" (some 8) (some 2)) [] [] (some 8) (some 2))
        (some 8) (some 2)] = some (4, some 4) ∧
    teBlockRange (some 1) (some 8) 7 [tryHandler1, tryHandler2]
      [.expr (.call (.name "print" (some 8) (some 2)) [] [] (some 8) (some 2))
        (some 8) (some 2)]
      = elsedBlockRange (some 1) (some 8) 7
          [.expr (.call (.name "print" (some 8) (some 2)) [] []
            (some 8) (some 2)) (some 8) (some 2)] (some 3) :=
  ⟨c8_tryexcept_scan.1 (some 1) (some 8) 3 _ [] [tryHandler2]
      (.name "IOError" (some 3) (some 7)) .empty [.pass (some 4) (some 2)]
      (some 3) (some 0) (by simp) rfl rfl,
   c8_tryexcept_scan.2.1 (some 1) (some 8) 4 _ [] [tryHandler2]
      (.name "IOError" (some 3) (some 7)) .empty [.pass (some 4) (some 2)]
      (some 3) (some 0) (.pass (some 4) (some 2)) (.pass (some 4) (some 2))
      4 4 (by simp) (by decide) rfl rfl rfl rfl (by decide) (by decide),
   c8_tryexcept_scan.2.2 (some 1) (some 8) 7 _ tryHandler1 [tryHandler2] 4
      (by
        intro h hm
        simp only [List.mem_cons, List.mem_singleton] at hm
        rcases hm with rfl | rfl | hF
        · exact ⟨.name "IOError" (some 3) (some 7), .empty,
            [.pass (some 4) (some 2)], some 3, some 0,
            .pass (some 4) (some 2), 4, .pass (some 4) (some 2), 4,
            rfl, by decide, rfl, rfl, rfl, rfl, by decide⟩
        · exact ⟨.name "UnicodeError" (some 5) (some 7), .empty,
            [.expr (.call (.name "print" (some 6) (some 2)) [] []
              (some 6) (some 2)) (some 6) (some 2)], some 5, some 0,
            .expr (.call (.name "print" (some 6) (some 2)) [] []
              (some 6) (some 2)) (some 6) (some 2), 6,
            .expr (.call (.name "print" (some 6) (some 2)) [] []
              (some 6) (some 2)) (some 6) (some 2), 6,
            rfl, by decide, rfl, by decide, rfl, by decide, by decide⟩
        · exact absurd hF (by simp))
      (by decide)⟩

/-- C10: `__eq__` ignores source position and parenthood — whenever two
nodes have the same variant tag, pairwise-equal declared child slots
and equal declared non-child fields, they are structurally equal, no
matter what their `lineno` / `col_offset` arguments are (parent links
are not part of a node in this embedding at all, matching `__eq__`,
which never reads `parent`). -/
theorem c10_eq_ignores_position (a b : Node) (htag : a.tag = b.tag)
    (hkids : focusEqList a.childFocuses b.childFocuses = true)
    (hother : a.otherFields = b.otherFields) : structEq a b = true := by
  cases a <;> cases b <;> simp only [Node.tag] at htag <;>
    first
      | exact htag.elim
      | simp_all [Node.childFocuses, Node.otherFields, focusEqList, focusEq,
          structEq]

/-- C10 (witness): two `Pass` statements on different lines and columns
are equal. -/
theorem c10_eq_ignores_position_witness :
    structEq (.pass (some 1) (some 0)) (.pass (some 5) (some 3)) = true :=
  c10_eq_ignores_position (.pass (some 1) (some 0)) (.pass (some 5) (some 3))
    rfl rfl rfl

end Astroid
